import Mathlib

/-!
Shallow embedding of the virtual-memory context module
(`src/kernel/src/memory/context/virtmem.rs`) of an object-based kernel:
the slot table (`SlotMgr`) with its dual maps, the `VirtContext` table
operations (`insert_object`, `lookup_object`, `remove_object`,
`invalidate_object`, `Drop`), the page-fault handler `page_fault`, and the
kernel heap allocator (`GlobalPageAlloc` / `allocate_chunk`).

Machine integers are modelled as `Nat` (no arithmetic in this module can
overflow `usize` on the inputs the kernel feeds it; addresses and sizes are
plain numbers here).  The architecture mapper, the thread/upcall subsystem
and the per-object page tree are external collaborators; their invocations
are recorded as explicit events/operations so that theorems can speak about
which calls the code performs and in which order.
-/

/-! ### Address-space constants.

`MAX_SIZE` (the fixed object/slot size) and the kernel-address boundary come
from external crates (`twizzler-abi`, the arch layer).  Modelled from the
spec: slots are fixed `MAX_SIZE`-sized regions of the user address range and
an address is a kernel address iff it lies at or above the kernel boundary. -/

def MAX_SIZE : Nat := 0x40000000

def PAGE_SIZE : Nat := 0x1000

def KERNEL_BASE : Nat := 0xffff800000000000

abbrev ObjID := Nat

abbrev Slot := Nat

abbrev VirtAddr := Nat

/-- Modelled from the spec: `VirtAddr::is_kernel` (arch-external) — an
address is a kernel address iff it lies in the kernel half of the space. -/
def is_kernel (a : VirtAddr) : Bool := decide (KERNEL_BASE ≤ a)

/-- Source `Slot::start_vaddr`: the base address of a slot's region. -/
def Slot.start_vaddr (s : Slot) : VirtAddr := s * MAX_SIZE

/-- Source `impl TryFrom<VirtAddr> for Slot`: fails iff the address is a
kernel address, else divides by the object size. -/
def slot_try_from_vaddr (a : VirtAddr) : Option Slot :=
  if is_kernel a then none else some (a / MAX_SIZE)

/-! ### Protections, cache types, mapping settings (from `twizzler-abi` /
the pagetables module; only the structure used by this file is modelled). -/

structure Protections where
  read : Bool
  write : Bool
  exec : Bool
  deriving DecidableEq

inductive CacheType
  | writeBack
  | writeThrough
  | writeCombining
  | uncacheable
  deriving DecidableEq

structure MappingFlags where
  user : Bool
  global : Bool
  deriving DecidableEq

structure MappingSettings where
  perms : Protections
  cache : CacheType
  flags : MappingFlags
  deriving DecidableEq

structure MappingCursor where
  start : VirtAddr
  len : Nat
  deriving DecidableEq

/-! ### The slot table.

`ObjectRef` (a shared handle to an Object) is represented by the object's
stable id: the code compares bindings structurally and otherwise only uses
`obj.id()`, `add_context`, `remove_context` and `lock_page_tree`; the latter
calls are recorded as events.  `BTreeMap` is modelled as an association list
with unique keys (insert replaces, remove deletes the first occurrence). -/

structure VirtContextSlot where
  obj : ObjID
  slot : Slot
  prot : Protections
  cache : CacheType
  deriving DecidableEq

structure ObjectContextInfo where
  object : ObjID
  prot : Protections
  cache : CacheType
  deriving DecidableEq

/-- Source `impl From<&VirtContextSlot> for ObjectContextInfo`. -/
def virt_slot_info (i : VirtContextSlot) : ObjectContextInfo :=
  ⟨i.obj, i.prot, i.cache⟩

/-- Source `VirtContextSlot::mapping_cursor`. -/
def VirtContextSlot.mapping_cursor (i : VirtContextSlot) (start len : Nat) :
    MappingCursor :=
  ⟨Slot.start_vaddr i.slot + start, len⟩

/-- Source `VirtContextSlot::mapping_settings`: clears WRITE when `wp` is
set and always maps with the USER flag. -/
def VirtContextSlot.mapping_settings (i : VirtContextSlot) (wp : Bool) :
    MappingSettings :=
  ⟨if wp then { i.prot with write := false } else i.prot, i.cache,
    ⟨true, false⟩⟩

def alist_get {β : Type} (l : List (Nat × β)) (k : Nat) : Option β :=
  match l with
  | [] => none
  | (a, b) :: t => if a = k then some b else alist_get t k

def alist_insert {β : Type} (l : List (Nat × β)) (k : Nat) (v : β) :
    List (Nat × β) :=
  match l with
  | [] => [(k, v)]
  | (a, b) :: t => if a = k then (k, v) :: t else (a, b) :: alist_insert t k v

def alist_remove {β : Type} (l : List (Nat × β)) (k : Nat) :
    List (Nat × β) :=
  match l with
  | [] => []
  | (a, b) :: t => if a = k then t else (a, b) :: alist_remove t k

structure SlotMgr where
  slots : List (Slot × VirtContextSlot)
  objs : List (ObjID × List Slot)
  deriving DecidableEq

/-- Source `SlotMgr::get`. -/
def SlotMgr.get (m : SlotMgr) (s : Slot) : Option VirtContextSlot :=
  alist_get m.slots s

/-- Source `SlotMgr::insert`: inserts into the primary map and pushes the
slot onto the secondary list for the object id (`entry(id).or_default`). -/
def SlotMgr.insert (m : SlotMgr) (slot : Slot) (id : ObjID)
    (info : VirtContextSlot) : SlotMgr :=
  { slots := alist_insert m.slots slot info
    objs := alist_insert m.objs id (((alist_get m.objs id).getD []) ++ [slot]) }

/-- Source `SlotMgr::remove`: removes the slot from the primary map and, if
it was bound, removes the ENTIRE secondary entry `objs[info.obj.id()]`
(`self.objs.remove(&info.obj.id())` — the whole `Vec`, not one slot). -/
def SlotMgr.remove (m : SlotMgr) (slot : Slot) :
    Option VirtContextSlot × SlotMgr :=
  match alist_get m.slots slot with
  | some info =>
      (some info,
        { slots := alist_remove m.slots slot
          objs := alist_remove m.objs info.obj })
  | none => (none, m)

/-- Source `SlotMgr::obj_to_slots`. -/
def SlotMgr.obj_to_slots (m : SlotMgr) (id : ObjID) : Option (List Slot) :=
  alist_get m.objs id

/-! ### Context operations over the slot table. -/

inductive InsertError
  | Occupied
  deriving DecidableEq

/-- Source `VirtContext::insert_object`.  The unconditional
`object_info.object().add_context(self)` side effect touches only the
object's own context list, not the table; it is not part of the table
state.  Returns the `Result` and the table afterwards. -/
def insert_object (m : SlotMgr) (slot : Slot) (oi : ObjectContextInfo) :
    Except InsertError Unit × SlotMgr :=
  let new_slot_info : VirtContextSlot := ⟨oi.object, slot, oi.prot, oi.cache⟩
  match SlotMgr.get m slot with
  | some info =>
      if info = new_slot_info then (.ok (), m) else (.error .Occupied, m)
  | none => (.ok (), SlotMgr.insert m slot oi.object new_slot_info)

/-- Source `VirtContext::lookup_object`. -/
def lookup_object (m : SlotMgr) (s : Slot) : Option ObjectContextInfo :=
  (SlotMgr.get m s).map virt_slot_info

/-- Source `VirtContext::remove_object`: removes the binding if present and
calls `obj.remove_context(self.id)`; the returned list records the object
ids on which `remove_context` was invoked. -/
def remove_object (m : SlotMgr) (s : Slot) : SlotMgr × List ObjID :=
  match SlotMgr.remove m s with
  | (some info, m2) => (m2, [info.obj])
  | (none, m2) => (m2, [])

/-- Source `impl Drop for VirtContext`: iterates the primary map's values
and calls `info.obj.remove_context(id)` for each; the result is the list of
object ids passed to `remove_context`, in iteration order. -/
def drop_context (m : SlotMgr) : List ObjID :=
  m.slots.map (fun p => p.2.obj)

/-- A sequence of table mutations, for stating the slot-table invariant
over arbitrary interleavings of insert and remove. -/
inductive SlotOp
  | ins (slot : Slot) (oi : ObjectContextInfo)
  | rem (slot : Slot)

def apply_ops (ops : List SlotOp) (m : SlotMgr) : SlotMgr :=
  match ops with
  | [] => m
  | .ins s oi :: rest => apply_ops rest (insert_object m s oi).2
  | .rem s :: rest => apply_ops rest (remove_object m s).1

/-- The spec's slot-table consistency invariant: a slot appears in the
secondary list for object id `o` iff the primary map binds it to a record
whose object id is `o`. -/
def slot_table_invariant (m : SlotMgr) : Prop :=
  ∀ (o : ObjID) (s : Slot),
    s ∈ (SlotMgr.obj_to_slots m o).getD [] ↔
      ∃ i, SlotMgr.get m s = some i ∧ i.obj = o

/-! ### Invalidation. -/

inductive InvalidateMode
  | Full
  | WriteProtect
  deriving DecidableEq

abbrev Page := Nat

/-- Modelled from the spec: `Page::new()` allocates a fresh zero-filled
physical page (external `obj::pages::Page`); its identity is irrelevant to
this module, which only passes it to `add_page` and to the mapper. -/
def Page.new : Page := 0

inductive PageProvider
  | zero
  | objectPage (p : Page)
  deriving DecidableEq

/-- Operations issued to the architecture mapper (external collaborator). -/
inductive ArchOp
  | map (cursor : MappingCursor) (phys : PageProvider)
      (settings : MappingSettings)
  | unmap (cursor : MappingCursor)
  | change (cursor : MappingCursor) (settings : MappingSettings)
  deriving DecidableEq

/-- The per-slot operation `invalidate_object` performs for one mode. -/
def invalidate_op (info : VirtContextSlot) (start len : Nat)
    (mode : InvalidateMode) : ArchOp :=
  match mode with
  | .Full => .unmap (info.mapping_cursor start len)
  | .WriteProtect =>
      .change (info.mapping_cursor start len) (info.mapping_settings true)

/-- The loop body of `invalidate_object`: a `none` result models the
`expect` panic on a secondary-index slot missing from the primary map. -/
def invalidate_slot_ops (m : SlotMgr) (maps : List Slot) (start len : Nat)
    (mode : InvalidateMode) : Option (List ArchOp) :=
  match maps with
  | [] => some []
  | s :: rest =>
      match SlotMgr.get m s with
      | none => none
      | some info =>
          (invalidate_slot_ops m rest start len mode).map
            (fun ops => invalidate_op info start len mode :: ops)

/-- Source `VirtContext::invalidate_object`: converts the page-number range
to a byte range and applies the mode's mapper operation to every slot the
secondary index lists for the object. -/
def invalidate_object (m : SlotMgr) (o : ObjID) (rstart rend : Nat)
    (mode : InvalidateMode) : Option (List ArchOp) :=
  let start := rstart * PAGE_SIZE
  let len := rend * PAGE_SIZE - start
  match SlotMgr.obj_to_slots m o with
  | some maps => invalidate_slot_ops m maps start len mode
  | none => some []

/-! ### The page-fault handler.

Inputs: the currently installed memory context (`current_memory_context`),
the page trees of the objects (external, keyed by object id), the faulting
address, the access kind, and the hardware flag set.  The handler never
suspends; its effect is a branch tag (which decision path was taken —
`fatal` tags model `panic!`) together with the ordered list of collaborator
calls and lock transitions it performs.  Lock events follow Rust drop
order: guards are released at scope exit in reverse order of acquisition,
and panics do not release. -/

inductive MemoryAccessKind
  | read
  | write
  | instructionFetch
  deriving DecidableEq

inductive ObjectMemoryError
  | nullPageAccess
  | outOfBounds (offset : Nat)
  deriving DecidableEq

inductive UpcallInfo
  | memoryContextViolation (address : Nat) (kind : MemoryAccessKind)
  | objectMemoryFault (id : ObjID) (err : ObjectMemoryError)
      (kind : MemoryAccessKind)
  deriving DecidableEq

structure PageFaultFlags where
  user : Bool
  invalid : Bool
  present : Bool
  deriving DecidableEq

/-- Modelled from the spec: the per-object page tree (external `obj`
module) maps page numbers to pages and owns copy-on-write policy — the
`cow` field is the collaborator's write-eligibility decision for a given
page number and write intent. -/
structure PageTree where
  pages : List (Nat × Page)
  cow : Nat → Bool → Bool

/-- Modelled from the spec: `get_page(page_number, write_intent)` yields the
stored page and the collaborator's copy-on-write flag, or `none` when the
page was never materialized. -/
def PageTree.get_page (t : PageTree) (pn : Nat) (w : Bool) :
    Option (Page × Bool) :=
  (alist_get t.pages pn).map (fun p => (p, t.cow pn w))

/-- Modelled from the spec: `add_page` stores a page at a page number. -/
def PageTree.add_page (t : PageTree) (pn : Nat) (p : Page) : PageTree :=
  { t with pages := alist_insert t.pages pn p }

/-- Modelled from the spec: `PageNumber::from_address` computes the page
number from the byte offset within the slot. -/
def page_number_from_address (a : VirtAddr) : Nat :=
  (a % MAX_SIZE) / PAGE_SIZE

/-- Source `cause == MemoryAccessKind::Write` (the write-intent argument of
`get_page`). -/
def write_intent (c : MemoryAccessKind) : Bool :=
  match c with
  | .write => true
  | _ => false

inductive Event
  | acqSlotLock
  | relSlotLock
  | acqTreeLock
  | relTreeLock
  | upcall (u : UpcallInfo)
  | addPage (pn : Nat) (p : Page)
  | arch (op : ArchOp)
  | fatal
  deriving DecidableEq

inductive PfBranch
  | invalidFatal
  | kernelFatal
  | kernelUpcall
  | noContextFatal
  | convFailUpcall
  | unboundUpcall
  | nullPage
  | outOfBounds
  | mapPresent
  | mapMaterialize
  | unwrapFatal
  deriving DecidableEq

/-- The body of `page_fault` lines 450–492 for a found binding, after the
page number has been computed: lock the object's page tree, check for the
zero page, check the bound, then look up / materialize and map.  The listed
events run between the slot-lock acquire and release, which the caller
adds. -/
def handle_bound (info : VirtContextSlot) (pn : Nat)
    (cause : MemoryAccessKind) (tree : PageTree) : PfBranch × List Event :=
  if pn = 0 then
    (.nullPage,
      [.acqTreeLock,
        .upcall (.objectMemoryFault info.obj .nullPageAccess cause),
        .relTreeLock])
  else if MAX_SIZE ≤ pn * PAGE_SIZE then
    (.outOfBounds,
      [.acqTreeLock,
        .upcall (.objectMemoryFault info.obj
          (.outOfBounds (pn * PAGE_SIZE)) cause),
        .relTreeLock])
  else
    match tree.get_page pn (write_intent cause) with
    | some (page, cow) =>
        (.mapPresent,
          [.acqTreeLock,
            .arch (.map (info.mapping_cursor (pn * PAGE_SIZE) PAGE_SIZE)
              (.objectPage page) (info.mapping_settings cow)),
            .relTreeLock])
    | none =>
        match (tree.add_page pn Page.new).get_page pn (write_intent cause) with
        | some (page, cow) =>
            (.mapMaterialize,
              [.acqTreeLock, .addPage pn Page.new,
                .arch (.map (info.mapping_cursor (pn * PAGE_SIZE) PAGE_SIZE)
                  (.objectPage page) (info.mapping_settings cow)),
                .relTreeLock])
        | none =>
            (.unwrapFatal, [.acqTreeLock, .addPage pn Page.new, .fatal])

/-- Source `page_fault`: the top-level dispatcher. -/
def page_fault (ctx : Option SlotMgr) (trees : ObjID → PageTree)
    (addr : VirtAddr) (cause : MemoryAccessKind) (flags : PageFaultFlags) :
    PfBranch × List Event :=
  if flags.invalid then (.invalidFatal, [.fatal])
  else if !flags.user && is_kernel addr then (.kernelFatal, [.fatal])
  else if is_kernel addr then
    (.kernelUpcall, [.upcall (.memoryContextViolation addr cause)])
  else
    match ctx with
    | none => (.noContextFatal, [.fatal])
    | some mgr =>
        match slot_try_from_vaddr addr with
        | none =>
            (.convFailUpcall, [.upcall (.memoryContextViolation addr cause)])
        | some slot =>
            match SlotMgr.get mgr slot with
            | some info =>
                let r := handle_bound info (page_number_from_address addr)
                  cause (trees info.obj)
                if r.1 = .unwrapFatal then (r.1, Event.acqSlotLock :: r.2)
                else (r.1, Event.acqSlotLock :: r.2 ++ [Event.relSlotLock])
            | none =>
                (.unboundUpcall,
                  [.acqSlotLock,
                    .upcall (.memoryContextViolation addr cause),
                    .relSlotLock])

def is_lock_event (e : Event) : Bool :=
  match e with
  | .acqSlotLock | .relSlotLock | .acqTreeLock | .relTreeLock => true
  | _ => false

def lock_events (es : List Event) : List Event := es.filter is_lock_event

/-- Whether, at any point while replaying the event list, the slot-table
lock and a page-tree lock are held simultaneously. -/
def holds_both_aux : List Event → Bool → Bool → Bool
  | [], _, _ => false
  | e :: es, s, t =>
      let s2 := match e with
        | .acqSlotLock => true
        | .relSlotLock => false
        | _ => s
      let t2 := match e with
        | .acqTreeLock => true
        | .relTreeLock => false
        | _ => t
      (s2 && t2) || holds_both_aux es s2 t2

def holds_both (es : List Event) : Bool := holds_both_aux es false false

/-! ### The kernel heap allocator.

`linked_list_allocator::Heap` is an external crate.  Modelled from the
spec: a first-fit free-list allocator over a managed byte range whose top
(`Heap.top`) is extended contiguously by `extend`; `allocate_first_fit`
scans free blocks in order and takes the first that can hold the layout's
padded size at the layout's alignment. -/

structure Layout where
  size : Nat
  align : Nat
  deriving DecidableEq

/-- Source `layout.pad_to_align().size()`: the size rounded up to the
alignment. -/
def Layout.pad_size (l : Layout) : Nat :=
  ((l.size + l.align - 1) / l.align) * l.align

def next_multiple_of (a n : Nat) : Nat := ((a + n - 1) / n) * n

def align_up (a n : Nat) : Nat := next_multiple_of a n

def block_fits (b : Nat × Nat) (sz al : Nat) : Bool :=
  decide (align_up b.1 al + sz ≤ b.1 + b.2)

structure Heap where
  blocks : List (Nat × Nat)
  top : Nat
  deriving DecidableEq

def alloc_go (bs : List (Nat × Nat)) (sz al : Nat) :
    Option (Nat × List (Nat × Nat)) :=
  match bs with
  | [] => none
  | b :: rest =>
      if block_fits b sz al then
        let p := align_up b.1 al
        some (p, (b.1, p - b.1) :: (p + sz, b.1 + b.2 - (p + sz)) :: rest)
      else (alloc_go rest sz al).map (fun q => (q.1, b :: q.2))

/-- Modelled from the spec: `Heap::allocate_first_fit`. -/
def Heap.allocate_first_fit (h : Heap) (l : Layout) :
    Option (Nat × Heap) :=
  (alloc_go h.blocks l.pad_size l.align).map
    (fun q => (q.1, { blocks := q.2, top := h.top }))

/-- Modelled from the spec: `Heap::extend` grows the managed range by `len`
bytes directly after the previous top. -/
def Heap.extend (h : Heap) (len : Nat) : Heap :=
  { blocks := h.blocks ++ [(h.top, len)], top := h.top + len }

/-- The settings `GlobalPageAlloc::extend` maps heap memory with:
READ | WRITE, write-back, GLOBAL. -/
def heap_mapping_settings : MappingSettings :=
  ⟨⟨true, true, false⟩, CacheType.writeBack, ⟨false, true⟩⟩

structure GlobalPageAlloc where
  alloc : Heap
  end_ : VirtAddr
  deriving DecidableEq

/-- Source `GlobalPageAlloc::extend`: maps `len` zero-provided bytes at the
current end through the kernel context's mapper, advances the end, and
extends the free-list allocator's range. -/
def GlobalPageAlloc.extend (g : GlobalPageAlloc) (len : Nat) :
    GlobalPageAlloc × List ArchOp :=
  ({ alloc := g.alloc.extend len, end_ := g.end_ + len },
    [ArchOp.map ⟨g.end_, len⟩ PageProvider.zero heap_mapping_settings])

/-- Source growth size computation in `allocate_chunk`:
`layout.pad_to_align().size().next_multiple_of(base_page_size) * 2`
(the base page size is `Table::level_to_page_size(0)`, the 4 KiB leaf). -/
def grow_size (l : Layout) : Nat :=
  next_multiple_of l.pad_size PAGE_SIZE * 2

/-- Source `VirtContext::allocate_chunk`: first-fit attempt; on failure
grow by `grow_size` and retry, the retry's failure being the final
`unwrap` panic (modelled as a `none` pointer result). -/
def allocate_chunk (g : GlobalPageAlloc) (l : Layout) :
    Option Nat × GlobalPageAlloc × List ArchOp :=
  match g.alloc.allocate_first_fit l with
  | some q => (some q.1, { g with alloc := q.2 }, [])
  | none =>
      let size := grow_size l
      let ge := g.extend size
      match ge.1.alloc.allocate_first_fit l with
      | some q => (some q.1, { alloc := q.2, end_ := ge.1.end_ }, ge.2)
      | none => (none, ge.1, ge.2)

/-! ### Helper lemmas. -/

theorem alist_get_insert_self {β : Type} (l : List (Nat × β)) (k : Nat)
    (v : β) : alist_get (alist_insert l k v) k = some v := by
  induction l with
  | nil => simp [alist_insert, alist_get]
  | cons h t ih =>
      obtain ⟨a, b⟩ := h
      by_cases hk : a = k
      · simp [alist_insert, hk, alist_get]
      · simp [alist_insert, hk, alist_get, ih]

theorem get_page_add_self (t : PageTree) (pn : Nat) (p : Page) (w : Bool) :
    (t.add_page pn p).get_page pn w = some (p, t.cow pn w) := by
  simp [PageTree.add_page, PageTree.get_page, alist_get_insert_self]

/-! ### Concrete states shared by several theorems below. -/

def prot_rw : Protections := ⟨true, true, false⟩

def oi7 : ObjectContextInfo := ⟨7, prot_rw, CacheType.writeBack⟩

def empty_mgr : SlotMgr := ⟨[], []⟩

/-- Object 7 bound into slots 0 and 1 by two `insert_object` calls. -/
def mgr_two : SlotMgr := (insert_object (insert_object empty_mgr 0 oi7).2 1 oi7).2

/-- Object 7 bound into slot 0 only. -/
def mgr_one : SlotMgr := (insert_object empty_mgr 0 oi7).2

def tree0 : PageTree := ⟨[], fun _ _ => false⟩

def trees0 : ObjID → PageTree := fun _ => tree0

/-- Table state after binding object 7 into slots 0 and 1 and then removing
slot 0 (the C1 failing input). -/
def c1_state : SlotMgr :=
  apply_ops [SlotOp.ins 0 oi7, SlotOp.ins 1 oi7, SlotOp.rem 0] empty_mgr

/-- C1: the slot-table consistency invariant fails.  With object 7 bound
into slots 0 and 1, removing slot 0 deletes the whole secondary entry
`objs[7]`, so slot 1 is still bound in the primary map but no longer
appears in the secondary index — `SlotMgr::remove` removes the entire
`Vec` instead of the one slot, contradicting the documented invariant and
breaking the invalidation fan-out the secondary index exists for. -/
theorem c1_secondary_index_dropped :
    SlotMgr.get c1_state 1 = some ⟨7, 1, prot_rw, CacheType.writeBack⟩ ∧
    SlotMgr.obj_to_slots c1_state 7 = none ∧
    ¬ slot_table_invariant c1_state := by
  refine ⟨by decide, by decide, fun h => ?_⟩
  have h2 := (h 7 1).mpr ⟨⟨7, 1, prot_rw, CacheType.writeBack⟩, by decide, rfl⟩
  revert h2
  decide

/-- C2: the insert contract.  A slot bound to a different binding makes
`insert_object` fail with `Occupied`, leaving the table unchanged and the
original binding retrievable; re-inserting an identical binding succeeds
and changes nothing; inserting into an unbound slot succeeds and adds the
binding to both maps, so a subsequent lookup returns an equal binding. -/
theorem c2_insert_contract (m : SlotMgr) (slot : Slot)
    (oi : ObjectContextInfo) :
    (∀ info, SlotMgr.get m slot = some info →
      info ≠ (⟨oi.object, slot, oi.prot, oi.cache⟩ : VirtContextSlot) →
      insert_object m slot oi = (.error .Occupied, m) ∧
        lookup_object (insert_object m slot oi).2 slot =
          some (virt_slot_info info)) ∧
    (SlotMgr.get m slot =
        some (⟨oi.object, slot, oi.prot, oi.cache⟩ : VirtContextSlot) →
      insert_object m slot oi = (.ok (), m)) ∧
    (SlotMgr.get m slot = none →
      (insert_object m slot oi).1 = .ok () ∧
      lookup_object (insert_object m slot oi).2 slot =
        some ⟨oi.object, oi.prot, oi.cache⟩ ∧
      slot ∈ (SlotMgr.obj_to_slots (insert_object m slot oi).2
        oi.object).getD []) := by
  refine ⟨fun info hget hne => ?_, fun hget => ?_, fun hget => ?_⟩
  · constructor
    · simp [insert_object, hget, hne]
    · simp [insert_object, hget, hne, lookup_object]
  · simp [insert_object, hget]
  · have hget2 : alist_get m.slots slot = none := hget
    refine ⟨?_, ?_, ?_⟩
    · simp [insert_object, SlotMgr.get, hget2]
    · simp [insert_object, SlotMgr.get, hget2, lookup_object, SlotMgr.insert,
        alist_get_insert_self, virt_slot_info]
    · simp [insert_object, SlotMgr.get, hget2, SlotMgr.insert,
        SlotMgr.obj_to_slots, alist_get_insert_self]

/-- C2 witness: the three cases of the insert contract at concrete
inputs — a conflicting binding for object 8 into occupied slot 0, an
idempotent re-insert of object 7 into slot 0, and a fresh insert of object
7 into unbound slot 3. -/
theorem c2_insert_contract_witness :
    insert_object mgr_two 0 ⟨8, prot_rw, CacheType.writeBack⟩ =
      (.error .Occupied, mgr_two) ∧
    insert_object mgr_two 0 oi7 = (.ok (), mgr_two) ∧
    lookup_object (insert_object empty_mgr 3 oi7).2 3 =
      some ⟨7, prot_rw, CacheType.writeBack⟩ :=
  ⟨((c2_insert_contract mgr_two 0 ⟨8, prot_rw, CacheType.writeBack⟩).1
      ⟨7, 0, prot_rw, CacheType.writeBack⟩ (by decide) (by decide)).1,
   (c2_insert_contract mgr_two 0 oi7).2.1 (by decide),
   ((c2_insert_contract empty_mgr 3 oi7).2.2 (by decide)).2.1⟩

/-- C3 counterexample: a context with object 7 bound into slots 0 and 1
holds two live bindings of one distinct object; dropping it invokes
`remove_context` twice for object 7, not exactly once as the claim
states for an object bound into several slots. -/
theorem c3_drop_counterexample :
    (drop_context mgr_two).length = 2 ∧
    List.count 7 (drop_context mgr_two) = 2 ∧
    ¬ List.count 7 (drop_context mgr_two) = 1 := by decide

/-- C3 (amended): dropping a `VirtContext` whose slot table holds n live
bindings invokes `remove_context` exactly n times, once per bound slot:
each object id receives exactly as many calls as it has bound slots (hence
exactly once per distinct object only when every object occupies a single
slot). -/
theorem c3_drop_calls (m : SlotMgr) :
    (drop_context m).length = m.slots.length ∧
    ∀ o : ObjID, List.count o (drop_context m) =
      m.slots.countP (fun p => p.2.obj == o) := by
  constructor
  · simp [drop_context]
  · intro o
    simp [drop_context, List.count, List.countP_map, Function.comp]
    rfl

/-! ### C8: invalidation fan-out helpers. -/

theorem invalidate_slot_ops_isSome (m : SlotMgr) (maps : List Slot)
    (start len : Nat) (mode : InvalidateMode)
    (h : ∀ s ∈ maps, (SlotMgr.get m s).isSome = true) :
    (invalidate_slot_ops m maps start len mode).isSome = true := by
  induction maps with
  | nil => simp [invalidate_slot_ops]
  | cons s rest ih =>
      obtain ⟨info, hinfo⟩ :=
        Option.isSome_iff_exists.mp (h s (List.mem_cons_self s rest))
      obtain ⟨ops, hops⟩ := Option.isSome_iff_exists.mp
        (ih (fun x hx => h x (List.mem_cons_of_mem s hx)))
      simp [invalidate_slot_ops, hinfo, hops]

theorem invalidate_slot_ops_mem (m : SlotMgr) (maps : List Slot)
    (start len : Nat) (mode : InvalidateMode) (ops : List ArchOp) (s : Slot)
    (info : VirtContextSlot)
    (hres : invalidate_slot_ops m maps start len mode = some ops)
    (hmem : s ∈ maps) (hget : SlotMgr.get m s = some info) :
    invalidate_op info start len mode ∈ ops := by
  induction maps generalizing ops with
  | nil => simp at hmem
  | cons a rest ih =>
      rcases List.mem_cons.mp hmem with rfl | hmem2
      · rw [invalidate_slot_ops, hget] at hres
        obtain ⟨ops2, _, hcons⟩ := Option.map_eq_some'.mp hres
        rw [← hcons]
        exact List.mem_cons_self _ _
      · rw [invalidate_slot_ops] at hres
        cases hga : SlotMgr.get m a with
        | none => rw [hga] at hres; simp at hres
        | some ia =>
            rw [hga] at hres
            obtain ⟨ops2, hops2, hcons⟩ := Option.map_eq_some'.mp hres
            rw [← hcons]
            exact List.mem_cons_of_mem _ (ih ops2 hops2 hmem2)

/-- C8: invalidation fan-out.  For an object bound into slots s1 and s2
(both listed under its secondary-index entry, every listed slot bound),
`invalidate_object` in `Full` mode issues an unmap of the corresponding
byte range in both slots, and in `WriteProtect` mode re-applies both
mappings with settings whose write permission is cleared and whose read
permission is unchanged. -/
theorem c8_invalidate_fanout (m : SlotMgr) (o : ObjID) (maps : List Slot)
    (s1 s2 : Slot) (i1 i2 : VirtContextSlot) (rs re : Nat)
    (hmaps : SlotMgr.obj_to_slots m o = some maps)
    (h1 : s1 ∈ maps) (h2 : s2 ∈ maps)
    (hg1 : SlotMgr.get m s1 = some i1) (hg2 : SlotMgr.get m s2 = some i2)
    (hall : ∀ s ∈ maps, (SlotMgr.get m s).isSome = true) :
    (∃ ops, invalidate_object m o rs re .Full = some ops ∧
      ArchOp.unmap (i1.mapping_cursor (rs * PAGE_SIZE)
        (re * PAGE_SIZE - rs * PAGE_SIZE)) ∈ ops ∧
      ArchOp.unmap (i2.mapping_cursor (rs * PAGE_SIZE)
        (re * PAGE_SIZE - rs * PAGE_SIZE)) ∈ ops) ∧
    (∃ ops, invalidate_object m o rs re .WriteProtect = some ops ∧
      ArchOp.change (i1.mapping_cursor (rs * PAGE_SIZE)
          (re * PAGE_SIZE - rs * PAGE_SIZE)) (i1.mapping_settings true) ∈ ops ∧
      ArchOp.change (i2.mapping_cursor (rs * PAGE_SIZE)
          (re * PAGE_SIZE - rs * PAGE_SIZE)) (i2.mapping_settings true) ∈ ops) ∧
    (i1.mapping_settings true).perms.write = false ∧
    (i1.mapping_settings true).perms.read = i1.prot.read ∧
    (i2.mapping_settings true).perms.write = false ∧
    (i2.mapping_settings true).perms.read = i2.prot.read := by
  have key : ∀ mode : InvalidateMode, ∃ ops,
      invalidate_object m o rs re mode = some ops ∧
      invalidate_op i1 (rs * PAGE_SIZE) (re * PAGE_SIZE - rs * PAGE_SIZE)
        mode ∈ ops ∧
      invalidate_op i2 (rs * PAGE_SIZE) (re * PAGE_SIZE - rs * PAGE_SIZE)
        mode ∈ ops := by
    intro mode
    obtain ⟨ops, hops⟩ := Option.isSome_iff_exists.mp
      (invalidate_slot_ops_isSome m maps (rs * PAGE_SIZE)
        (re * PAGE_SIZE - rs * PAGE_SIZE) mode hall)
    refine ⟨ops, ?_, ?_, ?_⟩
    · simp [invalidate_object, hmaps, hops]
    · exact invalidate_slot_ops_mem m maps _ _ mode ops s1 i1 hops h1 hg1
    · exact invalidate_slot_ops_mem m maps _ _ mode ops s2 i2 hops h2 hg2
  refine ⟨key .Full, key .WriteProtect, ?_, ?_, ?_, ?_⟩ <;>
    simp [VirtContextSlot.mapping_settings]

/-- C8 witness: object 7 bound into slots 0 and 1 (state `mgr_two`),
invalidating page range [0, 1). -/
theorem c8_invalidate_fanout_witness :
    (∃ ops, invalidate_object mgr_two 7 0 1 .Full = some ops ∧
      ArchOp.unmap ((⟨7, 0, prot_rw, CacheType.writeBack⟩ :
        VirtContextSlot).mapping_cursor (0 * PAGE_SIZE)
          (1 * PAGE_SIZE - 0 * PAGE_SIZE)) ∈ ops ∧
      ArchOp.unmap ((⟨7, 1, prot_rw, CacheType.writeBack⟩ :
        VirtContextSlot).mapping_cursor (0 * PAGE_SIZE)
          (1 * PAGE_SIZE - 0 * PAGE_SIZE)) ∈ ops) ∧
    (∃ ops, invalidate_object mgr_two 7 0 1 .WriteProtect = some ops ∧
      ArchOp.change ((⟨7, 0, prot_rw, CacheType.writeBack⟩ :
          VirtContextSlot).mapping_cursor (0 * PAGE_SIZE)
            (1 * PAGE_SIZE - 0 * PAGE_SIZE))
        ((⟨7, 0, prot_rw, CacheType.writeBack⟩ :
          VirtContextSlot).mapping_settings true) ∈ ops ∧
      ArchOp.change ((⟨7, 1, prot_rw, CacheType.writeBack⟩ :
          VirtContextSlot).mapping_cursor (0 * PAGE_SIZE)
            (1 * PAGE_SIZE - 0 * PAGE_SIZE))
        ((⟨7, 1, prot_rw, CacheType.writeBack⟩ :
          VirtContextSlot).mapping_settings true) ∈ ops) ∧
    ((⟨7, 0, prot_rw, CacheType.writeBack⟩ :
      VirtContextSlot).mapping_settings true).perms.write = false ∧
    ((⟨7, 0, prot_rw, CacheType.writeBack⟩ :
      VirtContextSlot).mapping_settings true).perms.read = true ∧
    ((⟨7, 1, prot_rw, CacheType.writeBack⟩ :
      VirtContextSlot).mapping_settings true).perms.write = false ∧
    ((⟨7, 1, prot_rw, CacheType.writeBack⟩ :
      VirtContextSlot).mapping_settings true).perms.read = true :=
  c8_invalidate_fanout mgr_two 7 [0, 1] 0 1
    ⟨7, 0, prot_rw, CacheType.writeBack⟩ ⟨7, 1, prot_rw, CacheType.writeBack⟩
    0 1 (by decide) (by decide) (by decide) (by decide) (by decide)
    (by decide)

/-! ### Page-fault helper lemmas. -/

theorem handle_bound_branch_cases (i : VirtContextSlot) (pn : Nat)
    (c : MemoryAccessKind) (t : PageTree) :
    (handle_bound i pn c t).1 = PfBranch.nullPage ∨
    (handle_bound i pn c t).1 = PfBranch.outOfBounds ∨
    (handle_bound i pn c t).1 = PfBranch.mapPresent ∨
    (handle_bound i pn c t).1 = PfBranch.mapMaterialize := by
  unfold handle_bound
  split
  · simp
  split
  · simp
  split
  · simp
  · rw [get_page_add_self]
    simp

theorem handle_bound_not_unwrap (i : VirtContextSlot) (pn : Nat)
    (c : MemoryAccessKind) (t : PageTree) :
    ¬ (handle_bound i pn c t).1 = PfBranch.unwrapFatal := by
  rcases handle_bound_branch_cases i pn c t with h | h | h | h <;>
    simp [h]

theorem handle_bound_lock_trace (i : VirtContextSlot) (pn : Nat)
    (c : MemoryAccessKind) (t : PageTree) :
    lock_events (handle_bound i pn c t).2 =
      [Event.acqTreeLock, Event.relTreeLock] := by
  unfold handle_bound
  split
  · simp [lock_events, is_lock_event]
  split
  · simp [lock_events, is_lock_event]
  split
  · simp [lock_events, is_lock_event]
  · rw [get_page_add_self]
    simp [lock_events, is_lock_event]

/-- C4: page-fault dispatch for kernel addresses and missing context, in
evaluation order: the entry-invalid flag is fatal; a non-user-mode fault on
a kernel address is fatal; a user-mode fault on a kernel address sends
exactly one `MemoryContextViolation{address, accessKind}` upcall to the
current thread with no mapping attempted; a user-space fault with no
current memory context is fatal. -/
theorem c4_dispatch (ctx : Option SlotMgr) (trees : ObjID → PageTree)
    (addr : VirtAddr) (cause : MemoryAccessKind) (flags : PageFaultFlags) :
    (flags.invalid = true →
      page_fault ctx trees addr cause flags = (.invalidFatal, [.fatal])) ∧
    (flags.invalid = false → flags.user = false → is_kernel addr = true →
      page_fault ctx trees addr cause flags = (.kernelFatal, [.fatal])) ∧
    (flags.invalid = false → flags.user = true → is_kernel addr = true →
      page_fault ctx trees addr cause flags =
        (.kernelUpcall, [.upcall (.memoryContextViolation addr cause)])) ∧
    (flags.invalid = false → is_kernel addr = false → ctx = none →
      page_fault ctx trees addr cause flags =
        (.noContextFatal, [.fatal])) := by
  refine ⟨fun h1 => ?_, fun h1 h2 h3 => ?_, fun h1 h2 h3 => ?_,
    fun h1 h2 h3 => ?_⟩ <;>
    simp [page_fault, h1, *]

/-- C4 witness: the four dispatch outcomes at concrete inputs. -/
theorem c4_dispatch_witness :
    page_fault none trees0 0 .read ⟨false, true, false⟩ =
      (.invalidFatal, [.fatal]) ∧
    page_fault none trees0 KERNEL_BASE .read ⟨false, false, false⟩ =
      (.kernelFatal, [.fatal]) ∧
    page_fault none trees0 KERNEL_BASE .read ⟨true, false, false⟩ =
      (.kernelUpcall,
        [.upcall (.memoryContextViolation KERNEL_BASE .read)]) ∧
    page_fault none trees0 0 .read ⟨true, false, false⟩ =
      (.noContextFatal, [.fatal]) :=
  ⟨(c4_dispatch none trees0 0 .read ⟨false, true, false⟩).1 rfl,
   (c4_dispatch none trees0 KERNEL_BASE .read ⟨false, false, false⟩).2.1
     rfl rfl (by decide),
   (c4_dispatch none trees0 KERNEL_BASE .read ⟨true, false, false⟩).2.2.1
     rfl rfl (by decide),
   (c4_dispatch none trees0 0 .read ⟨true, false, false⟩).2.2.2
     rfl (by decide) rfl⟩

/-- C5: bound-slot fault classification.  On a user-space fault whose slot
is bound: if the computed page number is the reserved zero page, exactly
one NullPageAccess object-memory-fault upcall is delivered and no mapping
installed; otherwise, if the page number's byte offset reaches `MAX_SIZE`,
exactly one OutOfBounds upcall with that offset is delivered and no
mapping installed (the zero-page check is evaluated first).  A fault whose
slot is unbound delivers one `MemoryContextViolation` upcall and installs
no mapping. -/
theorem c5_bound_fault_classification (mgr : SlotMgr)
    (trees : ObjID → PageTree) (addr : VirtAddr)
    (cause : MemoryAccessKind) (flags : PageFaultFlags) :
    (∀ info, flags.invalid = false → is_kernel addr = false →
      SlotMgr.get mgr (addr / MAX_SIZE) = some info →
      page_number_from_address addr = 0 →
      page_fault (some mgr) trees addr cause flags =
        (.nullPage,
          [.acqSlotLock, .acqTreeLock,
            .upcall (.objectMemoryFault info.obj .nullPageAccess cause),
            .relTreeLock, .relSlotLock])) ∧
    (∀ info pn (tree : PageTree), ¬ pn = 0 → MAX_SIZE ≤ pn * PAGE_SIZE →
      handle_bound info pn cause tree =
        (.outOfBounds,
          [.acqTreeLock,
            .upcall (.objectMemoryFault info.obj
              (.outOfBounds (pn * PAGE_SIZE)) cause),
            .relTreeLock])) ∧
    (flags.invalid = false → is_kernel addr = false →
      SlotMgr.get mgr (addr / MAX_SIZE) = none →
      page_fault (some mgr) trees addr cause flags =
        (.unboundUpcall,
          [.acqSlotLock, .upcall (.memoryContextViolation addr cause),
            .relSlotLock])) := by
  refine ⟨fun info h1 h2 hget hpn => ?_, fun info pn tree hpn hle => ?_,
    fun h1 h2 hget => ?_⟩
  · simp [page_fault, h1, h2, slot_try_from_vaddr, hget, hpn, handle_bound]
  · simp [handle_bound, hpn, hle]
  · simp [page_fault, h1, h2, slot_try_from_vaddr, hget]

/-- C5 witness: a zero-page fault on bound slot 0, an out-of-bounds page
number at the handler stage, and a fault on an unbound slot. -/
theorem c5_bound_fault_classification_witness :
    page_fault (some mgr_one) trees0 0x10 .read ⟨true, false, false⟩ =
      (.nullPage,
        [.acqSlotLock, .acqTreeLock,
          .upcall (.objectMemoryFault 7 .nullPageAccess .read),
          .relTreeLock, .relSlotLock]) ∧
    handle_bound ⟨7, 0, prot_rw, CacheType.writeBack⟩ 0x40000 .read tree0 =
      (.outOfBounds,
        [.acqTreeLock,
          .upcall (.objectMemoryFault 7
            (.outOfBounds (0x40000 * PAGE_SIZE)) .read),
          .relTreeLock]) ∧
    page_fault (some empty_mgr) trees0 0x10 .read ⟨true, false, false⟩ =
      (.unboundUpcall,
        [.acqSlotLock, .upcall (.memoryContextViolation 0x10 .read),
          .relSlotLock]) :=
  ⟨(c5_bound_fault_classification mgr_one trees0 0x10 .read
      ⟨true, false, false⟩).1 ⟨7, 0, prot_rw, CacheType.writeBack⟩
      rfl (by decide) (by decide) (by decide),
   (c5_bound_fault_classification mgr_one trees0 0x10 .read
      ⟨true, false, false⟩).2.1 ⟨7, 0, prot_rw, CacheType.writeBack⟩
      0x40000 tree0 (by decide) (by decide),
   (c5_bound_fault_classification empty_mgr trees0 0x10 .read
      ⟨true, false, false⟩).2.2 rfl (by decide) (by decide)⟩

/-- C6: lazy page materialization.  For a bound-slot fault at a valid page
number whose page is absent from the object's page tree, a fresh zero page
is added at that page number, the re-requested `get_page` succeeds (the
failure branch is unreachable for every input), and the page is mapped
into the slot's virtual range at that byte offset with the slot's
protection and cache policy, the write permission being cleared exactly
when the returned copy-on-write flag is set; when the page is present the
same mapping is performed without adding a page. -/
theorem c6_lazy_materialization (info : VirtContextSlot) (pn : Nat)
    (cause : MemoryAccessKind) (tree : PageTree)
    (h0 : ¬ pn = 0) (hb : pn * PAGE_SIZE < MAX_SIZE) :
    (tree.get_page pn (write_intent cause) = none →
      handle_bound info pn cause tree =
        (.mapMaterialize,
          [.acqTreeLock, .addPage pn Page.new,
            .arch (.map (info.mapping_cursor (pn * PAGE_SIZE) PAGE_SIZE)
              (.objectPage Page.new)
              (info.mapping_settings (tree.cow pn (write_intent cause)))),
            .relTreeLock])) ∧
    (∀ p c, tree.get_page pn (write_intent cause) = some (p, c) →
      handle_bound info pn cause tree =
        (.mapPresent,
          [.acqTreeLock,
            .arch (.map (info.mapping_cursor (pn * PAGE_SIZE) PAGE_SIZE)
              (.objectPage p) (info.mapping_settings c)),
            .relTreeLock])) ∧
    (∀ (i2 : VirtContextSlot) (pn2 : Nat) (c2 : MemoryAccessKind)
      (t2 : PageTree),
      ¬ (handle_bound i2 pn2 c2 t2).1 = PfBranch.unwrapFatal) ∧
    (∀ i2 : VirtContextSlot,
      (i2.mapping_settings true).perms.write = false ∧
      (i2.mapping_settings false).perms = i2.prot ∧
      ∀ c : Bool, (i2.mapping_settings c).cache = i2.cache ∧
        (i2.mapping_settings c).perms.read = i2.prot.read) := by
  have hb2 : ¬ MAX_SIZE ≤ pn * PAGE_SIZE := by omega
  refine ⟨fun hnone => ?_, fun p c hsome => ?_,
    handle_bound_not_unwrap, fun i2 => ?_⟩
  · simp [handle_bound, h0, hb2, hnone, get_page_add_self]
  · simp [handle_bound, h0, hb2, hsome]
  · refine ⟨by simp [VirtContextSlot.mapping_settings],
      by simp [VirtContextSlot.mapping_settings], fun c => ?_⟩
    cases c <;> simp [VirtContextSlot.mapping_settings]

/-- A page tree holding page 5 at page number 1, whose copy-on-write
policy always reports true. -/
def tree1 : PageTree := ⟨[(1, 5)], fun _ _ => true⟩

/-- C6 witness: materialization of an absent page at page number 1, and
mapping of a present page with the copy-on-write flag set. -/
theorem c6_lazy_materialization_witness :
    handle_bound ⟨7, 0, prot_rw, CacheType.writeBack⟩ 1 .read tree0 =
      (.mapMaterialize,
        [.acqTreeLock, .addPage 1 Page.new,
          .arch (.map ((⟨7, 0, prot_rw, CacheType.writeBack⟩ :
              VirtContextSlot).mapping_cursor (1 * PAGE_SIZE) PAGE_SIZE)
            (.objectPage Page.new)
            ((⟨7, 0, prot_rw, CacheType.writeBack⟩ :
              VirtContextSlot).mapping_settings false)),
          .relTreeLock]) ∧
    handle_bound ⟨7, 0, prot_rw, CacheType.writeBack⟩ 1 .read tree1 =
      (.mapPresent,
        [.acqTreeLock,
          .arch (.map ((⟨7, 0, prot_rw, CacheType.writeBack⟩ :
              VirtContextSlot).mapping_cursor (1 * PAGE_SIZE) PAGE_SIZE)
            (.objectPage 5)
            ((⟨7, 0, prot_rw, CacheType.writeBack⟩ :
              VirtContextSlot).mapping_settings true)),
          .relTreeLock]) :=
  ⟨(c6_lazy_materialization ⟨7, 0, prot_rw, CacheType.writeBack⟩ 1 .read
      tree0 (by decide) (by decide)).1 rfl,
   (c6_lazy_materialization ⟨7, 0, prot_rw, CacheType.writeBack⟩ 1 .read
      tree1 (by decide) (by decide)).2.1 5 true rfl⟩

/-- C9 counterexample: on a fault in a bound slot the handler acquires the
object's page-tree lock while the slot-table lock is still held (the slot
manager guard lives to the end of the function), so at the concrete input
below both locks are held simultaneously — refuting the claim that the
slot-table lock is released before the page-tree lock is acquired. -/
theorem c9_holds_both_counterexample :
    holds_both
      (page_fault (some mgr_one) trees0 0x10 .read ⟨true, false, false⟩).2 =
      true := by decide

/-- C9 (amended): in every execution of `page_fault` the lock trace is one
of: no lock used; slot-table lock acquired then released; or slot-table
lock acquired, page-tree lock acquired, page-tree lock released,
slot-table lock released.  The locks are thus always taken in the fixed
order slot table first, then page tree — but the page-tree lock is
acquired while the slot-table lock is still held, not after its release. -/
theorem c9_lock_order (ctx : Option SlotMgr) (trees : ObjID → PageTree)
    (addr : VirtAddr) (cause : MemoryAccessKind) (flags : PageFaultFlags) :
    lock_events (page_fault ctx trees addr cause flags).2 = [] ∨
    lock_events (page_fault ctx trees addr cause flags).2 =
      [Event.acqSlotLock, Event.relSlotLock] ∨
    lock_events (page_fault ctx trees addr cause flags).2 =
      [Event.acqSlotLock, Event.acqTreeLock, Event.relTreeLock,
        Event.relSlotLock] := by
  unfold page_fault
  split
  · left; rfl
  split
  · left; rfl
  split
  · left; rfl
  split
  · left; rfl
  · split
    · left; rfl
    · split
      · rename_i info heq
        right; right
        have hne := handle_bound_not_unwrap info
          (page_number_from_address addr) cause (trees info.obj)
        have hl := handle_bound_lock_trace info
          (page_number_from_address addr) cause (trees info.obj)
        simp only [lock_events] at hl
        simp [lock_events, hne, List.filter_append, hl, is_lock_event]
      · right; left
        simp [lock_events, is_lock_event]

/-- C10: conversion of a virtual address to a slot fails exactly when the
address is a kernel address; consequently the conversion-failure branch of
`page_fault` (which would deliver a `MemoryContextViolation` for an
address not convertible to a slot) is unreachable for every input, since
kernel addresses are dispatched before the conversion is attempted. -/
theorem c10_slot_conversion :
    (∀ a : VirtAddr, slot_try_from_vaddr a = none ↔ is_kernel a = true) ∧
    (∀ (ctx : Option SlotMgr) (trees : ObjID → PageTree) (addr : VirtAddr)
      (cause : MemoryAccessKind) (flags : PageFaultFlags),
      ¬ (page_fault ctx trees addr cause flags).1 =
        PfBranch.convFailUpcall) := by
  constructor
  · intro a
    by_cases h : is_kernel a = true <;> simp [slot_try_from_vaddr, h]
  · intro ctx trees addr cause flags
    unfold page_fault
    split
    · simp
    split
    · simp
    split
    · simp
    · rename_i h1 h2 h3
      cases ctx with
      | none => simp
      | some mgr =>
          have hk : is_kernel addr = false := by
            revert h3; cases is_kernel addr <;> simp
          simp only [slot_try_from_vaddr, hk, Bool.false_eq_true,
            if_false]
          cases hg : SlotMgr.get mgr (addr / MAX_SIZE) with
          | none => simp [hg]
          | some info =>
              simp only [hg]
              rcases handle_bound_branch_cases info
                (page_number_from_address addr) cause (trees info.obj) with
                h | h | h | h <;> simp [h]

/-- C10 witness: the conversion-failure branch is not taken at a concrete
kernel-address input nor at a concrete user-address input. -/
theorem c10_slot_conversion_witness :
    (slot_try_from_vaddr KERNEL_BASE = none ↔ is_kernel KERNEL_BASE = true) ∧
    ¬ (page_fault (some mgr_one) trees0 0x10 .read
        ⟨true, false, false⟩).1 = PfBranch.convFailUpcall :=
  ⟨c10_slot_conversion.1 KERNEL_BASE,
   c10_slot_conversion.2 (some mgr_one) trees0 0x10 .read
     ⟨true, false, false⟩⟩

/-! ### C7: heap-growth arithmetic helpers. -/

theorem next_multiple_of_le (a n : Nat) (hn : 0 < n) :
    a ≤ next_multiple_of a n := by
  unfold next_multiple_of
  rcases a with _ | m
  · exact Nat.zero_le _
  · have h1 : m + 1 + n - 1 = m + n := by omega
    rw [h1, Nat.add_div_right m hn, Nat.succ_mul]
    have h3 : n * (m / n) + m % n = m := Nat.div_add_mod m n
    have h4 : m % n < n := Nat.mod_lt _ hn
    have h7 : m / n * n = n * (m / n) := Nat.mul_comm _ _
    omega

theorem next_multiple_of_dvd (a n : Nat) : n ∣ next_multiple_of a n :=
  dvd_mul_left n _

theorem next_multiple_of_mono (a b n : Nat) (h : a ≤ b) :
    next_multiple_of a n ≤ next_multiple_of b n := by
  unfold next_multiple_of
  gcongr


theorem next_multiple_of_eq_of_dvd (a n : Nat) (hn : 0 < n) (h : n ∣ a) :
    next_multiple_of a n = a := by
  obtain ⟨k, rfl⟩ := h
  unfold next_multiple_of
  have h1 : n * k + n - 1 = n * k + (n - 1) := by omega
  rw [h1, Nat.mul_add_div hn, Nat.div_eq_of_lt (by omega : n - 1 < n)]
  ring

theorem next_multiple_of_le_add (a n : Nat) :
    next_multiple_of a n ≤ a + n - 1 := by
  unfold next_multiple_of
  exact Nat.div_mul_le_self _ _

theorem next_multiple_of_ge_n (a n : Nat) (ha : 0 < a) (hn : 0 < n) :
    n ≤ next_multiple_of a n :=
  Nat.le_of_dvd (lt_of_lt_of_le ha (next_multiple_of_le a n hn))
    (next_multiple_of_dvd a n)

/-- The padded request plus its alignment fits inside the growth size:
`grow_size` (the page-rounded padded size, doubled) leaves room for an
aligned allocation of the padded size anywhere in a fresh block. -/
theorem pad_align_le_grow (l : Layout) (k : Nat) (halign : l.align = 2 ^ k)
    (hs : 0 < l.size) : l.pad_size + l.align ≤ grow_size l := by
  have hal : 0 < l.align := by
    rw [halign]; exact pow_pos (by omega) k
  have hpad_pos : 0 < l.pad_size :=
    lt_of_lt_of_le hs (next_multiple_of_le l.size l.align hal)
  have hPS : 0 < PAGE_SIZE := by norm_num [PAGE_SIZE]
  by_cases hk : k ≤ 12
  · have h1 : l.align ≤ PAGE_SIZE := by
      rw [halign]
      calc (2 : Nat) ^ k ≤ 2 ^ 12 := Nat.pow_le_pow_right (by omega) hk
        _ = PAGE_SIZE := by norm_num [PAGE_SIZE]
    have h2 : l.pad_size ≤ next_multiple_of l.pad_size PAGE_SIZE :=
      next_multiple_of_le _ _ hPS
    have h3 : PAGE_SIZE ≤ next_multiple_of l.pad_size PAGE_SIZE :=
      next_multiple_of_ge_n _ _ hpad_pos hPS
    unfold grow_size
    omega
  · push_neg at hk
    have hdvd1 : PAGE_SIZE ∣ l.align := by
      rw [halign]
      calc PAGE_SIZE = 2 ^ 12 := by norm_num [PAGE_SIZE]
        _ ∣ 2 ^ k := pow_dvd_pow 2 (by omega)
    have hdvd2 : l.align ∣ l.pad_size := next_multiple_of_dvd _ _
    have heq : next_multiple_of l.pad_size PAGE_SIZE = l.pad_size :=
      next_multiple_of_eq_of_dvd _ _ hPS (hdvd1.trans hdvd2)
    have hal_le : l.align ≤ l.pad_size := Nat.le_of_dvd hpad_pos hdvd2
    unfold grow_size
    omega

theorem extend_block_fits (top L sz al : Nat) (hal : 0 < al)
    (hle : sz + al ≤ L) : block_fits (top, L) sz al = true := by
  simp only [block_fits, align_up, decide_eq_true_eq]
  have h1 : next_multiple_of top al ≤ top + al - 1 :=
    next_multiple_of_le_add top al
  omega

theorem alloc_go_isSome (bs : List (Nat × Nat)) (sz al : Nat)
    (h : ∃ b ∈ bs, block_fits b sz al = true) :
    (alloc_go bs sz al).isSome = true := by
  induction bs with
  | nil => simp at h
  | cons b rest ih =>
      obtain ⟨b2, hmem, hfit⟩ := h
      by_cases hb : block_fits b sz al = true
      · simp [alloc_go, hb]
      · rcases List.mem_cons.mp hmem with rfl | hmem2
        · exact absurd hfit hb
        · obtain ⟨q, hq⟩ :=
            Option.isSome_iff_exists.mp (ih ⟨b2, hmem2, hfit⟩)
          simp [alloc_go, hb, hq]

theorem allocate_first_fit_isSome (h : Heap) (l : Layout)
    (hex : ∃ b ∈ h.blocks, block_fits b l.pad_size l.align = true) :
    (h.allocate_first_fit l).isSome = true := by
  obtain ⟨q, hq⟩ :=
    Option.isSome_iff_exists.mp (alloc_go_isSome h.blocks _ _ hex)
  simp [Heap.allocate_first_fit, hq]

theorem allocate_first_fit_top (h : Heap) (l : Layout) (p : Nat) (h2 : Heap)
    (hres : h.allocate_first_fit l = some (p, h2)) : h2.top = h.top := by
  unfold Heap.allocate_first_fit at hres
  obtain ⟨q, _, hpair⟩ := Option.map_eq_some'.mp hres
  injection hpair with ha hb
  rw [← hb]

/-- C7: heap growth on allocation failure.  When the first-fit attempt
fails, `allocate_chunk` computes a growth size equal to the
alignment-padded request rounded up to the base page size and doubled —
hence at least twice the page-rounded requested size — maps exactly that
many zero-provided bytes at the current end of the heap, advances the end
by exactly that length (monotonically non-decreasing), extends the
free-list allocator's managed range by the same amount, and retries; the
retry is guaranteed to succeed (for any power-of-two alignment, as Rust's
`Layout` guarantees), its failure being the fatal `unwrap`. -/
theorem c7_heap_growth (g : GlobalPageAlloc) (l : Layout) (k : Nat)
    (hfail : g.alloc.allocate_first_fit l = none)
    (halign : l.align = 2 ^ k) (hsize : 0 < l.size) :
    (allocate_chunk g l).2.2 =
      [ArchOp.map ⟨g.end_, grow_size l⟩ PageProvider.zero
        heap_mapping_settings] ∧
    (allocate_chunk g l).2.1.end_ = g.end_ + grow_size l ∧
    g.end_ ≤ (allocate_chunk g l).2.1.end_ ∧
    (allocate_chunk g l).2.1.alloc.top = g.alloc.top + grow_size l ∧
    2 * next_multiple_of l.size PAGE_SIZE ≤ grow_size l ∧
    (allocate_chunk g l).1.isSome = true := by
  have hal : 0 < l.align := by
    rw [halign]; exact pow_pos (by omega) k
  have hfit : block_fits (g.alloc.top, grow_size l) l.pad_size l.align =
      true :=
    extend_block_fits _ _ _ _ hal
      (pad_align_le_grow l k halign hsize)
  have hexists : ∃ b ∈ (g.alloc.extend (grow_size l)).blocks,
      block_fits b l.pad_size l.align = true :=
    ⟨(g.alloc.top, grow_size l), by simp [Heap.extend], hfit⟩
  obtain ⟨⟨p, h2⟩, hres⟩ := Option.isSome_iff_exists.mp
    (allocate_first_fit_isSome (g.alloc.extend (grow_size l)) l hexists)
  have htop := allocate_first_fit_top _ _ _ _ hres
  have hgrow2 : 2 * next_multiple_of l.size PAGE_SIZE ≤ grow_size l := by
    have hsp : l.size ≤ l.pad_size := next_multiple_of_le l.size l.align hal
    have := next_multiple_of_mono l.size l.pad_size PAGE_SIZE hsp
    unfold grow_size
    omega
  simp only [Heap.extend] at hres htop
  refine ⟨?_, ?_, ?_, ?_, hgrow2, ?_⟩ <;>
    simp [allocate_chunk, hfail, GlobalPageAlloc.extend, Heap.extend, hres,
      htop]

/-- Modelled heap-start constant (`VirtAddr::HEAP_START`, arch-external). -/
def HEAP_START : Nat := 0xffffff0000000000

/-- The global allocator's state with an empty free list at heap start. -/
def g0 : GlobalPageAlloc := ⟨⟨[], HEAP_START⟩, HEAP_START⟩

/-- C7 witness: an allocation of 16 bytes aligned to 8 on the empty heap:
the first fit fails, the heap grows by one doubled page at the end, and
the retry succeeds. -/
theorem c7_heap_growth_witness :
    (allocate_chunk g0 ⟨16, 8⟩).2.2 =
      [ArchOp.map ⟨HEAP_START, grow_size ⟨16, 8⟩⟩ PageProvider.zero
        heap_mapping_settings] ∧
    (allocate_chunk g0 ⟨16, 8⟩).2.1.end_ = HEAP_START + grow_size ⟨16, 8⟩ ∧
    HEAP_START ≤ (allocate_chunk g0 ⟨16, 8⟩).2.1.end_ ∧
    (allocate_chunk g0 ⟨16, 8⟩).2.1.alloc.top =
      HEAP_START + grow_size ⟨16, 8⟩ ∧
    2 * next_multiple_of 16 PAGE_SIZE ≤ grow_size ⟨16, 8⟩ ∧
    (allocate_chunk g0 ⟨16, 8⟩).1.isSome = true :=
  c7_heap_growth g0 ⟨16, 8⟩ 3 (by decide) (by decide) (by decide)
